import Mathlib

/-!
gitscale: broadcast writer, replication collector, resync and pkt-line framing

A shallow embedding of `writer.go`, `git.go` and `main.go`.

* Go strings are modelled as lists of characters (`GoString`); `len` counts
  the bytes of the UTF-8 encoding, as Go does.
* Stateful code is written in state-passing style over an explicit world.
* The repository executor (`git.Command.Run`) is an external collaborator: it is
  a parameter giving, for an invocation and an executor state, the outcome and
  the next executor state.
-/

namespace Gitscale

/-- A Go `string` (and the `[]byte` made from it), as the list of its
characters. -/
abbrev GoString := List Char

/-- Go `len(s)` of a string: the number of bytes of its UTF-8 encoding. -/
def len (s : GoString) : Nat := (s.map Char.utf8Size).sum

/-- A chunk `p []byte` offered to a writer. -/
abbrev Bytes := List UInt8

/-! ## writer.go -/

/-- The local type `nAndErrType` of `asyncMultiWriter.Write`: what one sink's
`Write` returned. `err = none` is the nil error. -/
structure nAndErrType (ε : Type) where
  n : Int
  err : Option ε

/-- An `io.Writer` whose dynamic type is not `*asyncMultiWriter`. Its `Write`
may read and change the world `σ` and returns any `(n, err)`. -/
structure Sink (σ ε : Type) where
  Write : Bytes → σ → nAndErrType ε × σ

/-- The value built by `errors.Join`: the non-nil errors, in argument order. -/
structure joinError (α : Type) where
  errs : List α
deriving DecidableEq

/-- Go `errors.Join`: nil when every argument is nil, otherwise a join error
holding the non-nil arguments in order. -/
def errorsJoin {α : Type} (errs : List (Option α)) : Option (joinError α) :=
  let kept := errs.filterMap id
  if kept.length = 0 then none else some ⟨kept⟩

/-- The state of one `asyncMultiWriter.Write` call while its goroutines run:
the world and the slice `nAndErrs`. -/
structure WriteState (σ ε : Type) where
  world : σ
  nAndErrs : List (nAndErrType ε)

/-- The goroutine body `nAndErrs[i].n, nAndErrs[i].err = w.Write(p)` of the
goroutine started with index `i` and writer `w` (lines 85-88). -/
def goroutine {σ ε : Type} (p : Bytes) (st : WriteState σ ε) (i : Nat) (w : Sink σ ε) :
    WriteState σ ε :=
  let r := w.Write p st.world
  { world := r.2, nAndErrs := st.nAndErrs.set i r.1 }

/-- The loop `for i, w := range aw.writers { go func(i, w) ... }(i, w)` (lines
84-89): the goroutines it starts, each with its index and writer, the first
index being the given one. -/
def spawn {σ ε : Type} : Nat → List (Sink σ ε) → List (Nat × Sink σ ε)
  | _, [] => []
  | i, w :: ws => (i, w) :: spawn (i + 1) ws

/-- The element at position `k` of a list together with the other elements;
`none` when there is no such position. -/
def pick {α : Type} : Nat → List α → Option (α × List α)
  | _, [] => none
  | 0, a :: l => some (a, l)
  | k + 1, a :: l => (pick k l).map (fun r => (r.1, a :: r.2))

/-- The started goroutines run to their end one after the other until none is
pending, which is when `wg.Wait()` returns (line 91). Which pending goroutine
runs next is the choice of the scheduler: the next number of `sched` (0 when
`sched` is used up), taken modulo the number of pending goroutines. The first
argument bounds the number of steps. -/
def runGoroutines {σ ε : Type} (p : Bytes) :
    Nat → List Nat → List (Nat × Sink σ ε) → WriteState σ ε → WriteState σ ε
  | 0, _, _, st => st
  | fuel + 1, sched, pending, st =>
    match pick (sched.headD 0 % pending.length) pending with
    | none => st
    | some (g, rest) => runGoroutines p fuel sched.tail rest (goroutine p st g.1 g.2)

/-- The state after `wg.Wait()` (lines 74-91): `nAndErrs` is made with one zero
entry per writer, one goroutine per writer is started, and all of them have
run, in the order the scheduler `sched` chose. -/
def asyncMultiWriter.run {σ ε : Type} (writers : List (Sink σ ε)) (sched : List Nat)
    (p : Bytes) (s : σ) : WriteState σ ε :=
  runGoroutines p writers.length sched (spawn 0 writers)
    { world := s, nAndErrs := List.replicate writers.length ⟨0, none⟩ }

/-- The slice `errs` of `asyncMultiWriter.Write` (lines 93-98): the non-nil
`val.err`, in sink order. -/
def asyncMultiWriter.errs {ε : Type} (nAndErrs : List (nAndErrType ε)) : List ε :=
  nAndErrs.foldl (fun errs val =>
    match val.err with
    | some e => errs ++ [e]
    | none => errs) []

/-- Model of `asyncMultiWriter.Write` (lines 73-105): the returned
`(n, err)`. -/
def asyncMultiWriter.Write {σ ε : Type} (writers : List (Sink σ ε)) (sched : List Nat)
    (p : Bytes) (s : σ) : Int × Option (joinError ε) :=
  let errs := asyncMultiWriter.errs (asyncMultiWriter.run writers sched p s).nAndErrs
  if errs.length > 0 then
    ((p.length : Int), errorsJoin (errs.map some))
  else
    ((p.length : Int), none)

/-- An `io.Writer` seen by `AsyncMultiWriter`, by dynamic type: either a
`*asyncMultiWriter` with its `writers` field, or anything else. The only place
that builds a `*asyncMultiWriter` is `AsyncMultiWriter`, which never stores one
in the field, so the field holds non-broadcast writers. -/
inductive Writer (σ ε : Type) where
  | other (w : Sink σ ε)
  | asyncMultiWriter (writers : List (Sink σ ε))

/-- Model of `AsyncMultiWriter` (lines 57-67): the loop over the arguments that
splices the `writers` of a broadcast argument and appends any other argument. -/
def AsyncMultiWriter {σ ε : Type} (writers : List (Writer σ ε)) : Writer σ ε :=
  Writer.asyncMultiWriter
    (writers.foldl (fun allWriters w =>
      match w with
      | Writer.asyncMultiWriter mw => allWriters ++ mw
      | Writer.other w => allWriters ++ [w]) [])

/-- The sink list a writer stands for: the `writers` field of a broadcast
writer, the writer itself otherwise. -/
def Writer.sinks {σ ε : Type} : Writer σ ε → List (Sink σ ε)
  | Writer.asyncMultiWriter mw => mw
  | Writer.other w => [w]

/-- The `*ErrWrite` value of `writer.go` (lines 14-17); `Err = none` stands for
`io.ErrShortWrite`, `some e` for the error a writer returned. -/
structure ErrWrite (ε : Type) where
  ID : Nat
  Err : Option ε
deriving DecidableEq

/-- Model of the sequential sibling `multiWriter.Write` (lines 23-48): the
returned `(n, err)` and the world afterwards. -/
def multiWriter.Write {σ ε : Type} (writers : List (Sink σ ε)) (p : Bytes) (s : σ) :
    (Int × Option (joinError (ErrWrite ε))) × σ :=
  let go := writers.foldl (fun (acc : (List (ErrWrite ε) × σ) × Nat) w =>
    let r := w.Write p acc.1.2
    match r.1.err with
    | some e => ((acc.1.1 ++ [⟨acc.2, some e⟩], r.2), acc.2 + 1)
    | none =>
      if r.1.n ≠ (p.length : Int) then ((acc.1.1 ++ [⟨acc.2, none⟩], r.2), acc.2 + 1)
      else ((acc.1.1, r.2), acc.2 + 1)) (([], s), 0)
  if go.1.1.length > 0 then
    (((p.length : Int), errorsJoin (go.1.1.map some)), go.1.2)
  else
    (((p.length : Int), none), go.1.2)

/-! ### Sample sinks -/

/-- A sink that accepts the whole chunk. -/
def okSink : Sink Unit GoString := ⟨fun p s => (⟨(p.length : Int), none⟩, s)⟩

/-- A sink that fails with the given error and accepts nothing. -/
def failSink (e : GoString) : Sink Unit GoString := ⟨fun _ s => (⟨0, some e⟩, s)⟩

/-- A sink that accepts no byte and reports no error. -/
def shortSink : Sink Unit GoString := ⟨fun _ s => (⟨0, none⟩, s)⟩

/-! ### Sinks that record what they are handed -/

/-- The sink `w` made to record each call: its `Write` notes the position `i`
of the sink and the chunk it was handed in a log kept beside the world, and
otherwise does what `w.Write` does. -/
def traceSink {σ ε : Type} (i : Nat) (w : Sink σ ε) : Sink (σ × List (Nat × Bytes)) ε :=
  ⟨fun q s =>
    let r := w.Write q s.1
    (r.1, (r.2, s.2 ++ [(i, q)]))⟩

/-- Every sink of a list made to record its calls under its position in the
list, positions counted from the given number. -/
def tracedFrom {σ ε : Type} : Nat → List (Sink σ ε) → List (Sink (σ × List (Nat × Bytes)) ε)
  | _, [] => []
  | i, w :: ws => traceSink i w :: tracedFrom (i + 1) ws

/-- The sinks of a broadcast writer made to record their calls. -/
def traced {σ ε : Type} (writers : List (Sink σ ε)) : List (Sink (σ × List (Nat × Bytes)) ε) :=
  tracedFrom 0 writers

/-- A started goroutine whose writer is made to record its calls. -/
def traceGoroutine {σ ε : Type} (g : Nat × Sink σ ε) :
    Nat × Sink (σ × List (Nat × Bytes)) ε :=
  (g.1, traceSink g.1 g.2)

/-! ## Go library functions used by git.go and main.go -/

/-- Go `strings.HasPrefix`. -/
def HasPrefix (s pre : GoString) : Bool := pre.isPrefixOf s

/-- Go `strings.TrimPrefix`: `s` without the leading `pre`, or `s` itself. -/
def TrimPrefix (s pre : GoString) : GoString :=
  if HasPrefix s pre then s.drop pre.length else s

/-- Go `unicode.IsSpace`: the Unicode White_Space code points. -/
def isSpace (c : Char) : Bool :=
  c = '\t' || c = '\n' || c.toNat = 0x0B || c.toNat = 0x0C || c = '\r' || c = ' ' ||
  c.toNat = 0x85 || c.toNat = 0xA0 || c.toNat = 0x1680 ||
  (0x2000 ≤ c.toNat && c.toNat ≤ 0x200A) || c.toNat = 0x2028 || c.toNat = 0x2029 ||
  c.toNat = 0x202F || c.toNat = 0x205F || c.toNat = 0x3000

/-- Go `strings.TrimSpace`: leading and trailing white space removed. -/
def TrimSpace (s : GoString) : GoString :=
  ((s.dropWhile isSpace).reverse.dropWhile isSpace).reverse

/-- Go `strings.Repeat`. -/
def Repeat (s : GoString) (count : Nat) : GoString :=
  (List.replicate count s).flatten

/-- The components of a string between occurrences of `sep`. -/
def splitOn (sep : Char) : GoString → List GoString
  | [] => [[]]
  | c :: cs =>
    if c = sep then [] :: splitOn sep cs
    else
      match splitOn sep cs with
      | [] => [[c]]
      | h :: t => (c :: h) :: t

/-- Go `path.Clean`, component by component: empty and `.` components are
dropped, `..` removes the component before it (and is dropped at the root, kept
at the start of a relative path); the empty result is `.`. -/
def pathClean (p : GoString) : GoString :=
  if p = [] then ".".toList
  else
    let rooted := p.head? = some '/'
    let out := (splitOn '/' p).foldl (fun (out : List GoString) c =>
      if c = [] || c = ".".toList then out
      else if c = "..".toList then
        match out.getLast? with
        | none => if rooted then out else out ++ [c]
        | some top => if top = "..".toList then out ++ [c] else out.dropLast
      else out ++ [c]) []
    let body := "/".toList.intercalate out
    if rooted then '/' :: body
    else if body = [] then ".".toList else body

/-- Go `path.Join`: the non-empty elements joined by a slash, cleaned; the empty
string when every element is empty. -/
def pathJoin (elem : List GoString) : GoString :=
  let kept := elem.filter (fun e => e ≠ [])
  if kept = [] then [] else pathClean ("/".toList.intercalate kept)

/-- The digit table of Go `strconv`. -/
def digits : GoString := "0123456789abcdefghijklmnopqrstuvwxyz".toList

/-- The digit character of a digit value. -/
def digit (d : Nat) : Char := digits.getD d '0'

/-- The digit loop of Go `strconv.FormatInt` for a non-negative value: digits
are produced from the least significant one and put in front of `a`. The first
argument bounds the number of iterations. -/
def formatBits (base : Nat) : Nat → Nat → GoString → GoString
  | 0, u, a => digit u :: a
  | fuel + 1, u, a =>
    if u ≥ base then formatBits base fuel (u / base) (digit (u % base) :: a)
    else digit u :: a

/-- Go `strconv.FormatInt(i, base)` for `i ≥ 0`. -/
def FormatInt (i : Nat) (base : Nat) : GoString := formatBits base i i []

/-- The value of a lower-case hexadecimal digit; `none` for any other
character. -/
def hexDigitValue (c : Char) : Option Nat :=
  let i := digits.indexOf c
  if i < 16 then some i else none

/-- One step of reading a hexadecimal numeral: the value so far and the next
digit. -/
def hexStep (acc : Option Nat) (c : Char) : Option Nat :=
  match acc, hexDigitValue c with
  | some v, some d => some (16 * v + d)
  | _, _ => none

/-- The value of a hexadecimal numeral, most significant digit first. -/
def hexValue (s : GoString) : Option Nat :=
  s.foldl hexStep (some 0)

/-! ## git.go: framing -/

/-- Model of `packetWrite` (git.go lines 127-133). -/
def packetWrite (str : GoString) : GoString :=
  let s := FormatInt (len str + 4) 16
  let s := if len s % 4 ≠ 0 then Repeat "0".toList (4 - len s % 4) ++ s else s
  s ++ str

/-! ## The world: marker files, the repository executor, the HTTP exchange -/

/-- A file of the node directories: its content, and whether reading it fails
(as `io.ReadAll` does on a directory). -/
structure File where
  data : GoString
  readFails : Bool
deriving DecidableEq

/-- One run of the repository executor: the arguments of the `git.Command` and
the `Dir` and `Env` of its `git.RunOpts`. -/
structure Invocation where
  args : List GoString
  Dir : GoString
  Env : List GoString
deriving DecidableEq

/-- What a run of the repository executor yields: the bytes it wrote to its
standard output and its error (`none` is nil). -/
structure RunResult where
  stdout : GoString
  err : Option GoString

/-- The repository executor, an external collaborator: the outcome of an
invocation in an executor state `E` (repository data, remotes, clock) and the
state afterwards. A step that runs out of its time budget is a failing run.
The executor works on the repository of the node; it leaves the marker files
alone. -/
structure Executor (E : Type) where
  Run : Invocation → E → RunResult × E

/-- The `http.ResponseWriter` of the request: header map, the status code once
written (`none` until then; the server sends 200 for a handler that never
writes one), and the body written so far. -/
structure ResponseWriter where
  header : List (GoString × GoString)
  status : Option Nat
  body : GoString

/-- The type `result` of main.go (lines 102-105); `err = none` is nil. -/
structure result where
  node : GoString
  err : Option GoString
deriving DecidableEq

/-- Everything the handlers act on. `files` is the file system (`none`: no such
file), `noWrite` tells the paths that cannot be created or removed, `osEnviron`
is `os.Environ()`, `git` the executor state, `invocations` the log of executor
runs so far (instrumentation), `resp` the response writer, `gitResult` the
content of the result channel of the request. -/
structure World (E : Type) where
  files : GoString → Option File
  noWrite : GoString → Bool
  osEnviron : List GoString
  git : E
  invocations : List Invocation
  resp : ResponseWriter
  gitResult : List result

/-- How a function body ends: it returns, it panics, or it blocks for ever. -/
inductive Exit where
  | returned
  | panicked
  | blocked
deriving DecidableEq

/-- Run the executor once and log the invocation. -/
def run {E : Type} (x : Executor E) (inv : Invocation) (w : World E) : RunResult × World E :=
  let r := x.Run inv w.git
  (r.1, { w with git := r.2, invocations := w.invocations ++ [inv] })

/-- Flag values of Go package `os` (Linux numbering): the access mode is the
flag modulo 4, `O_RDONLY` being zero. -/
def O_RDONLY : Nat := 0

/-- Write-only access mode. -/
def O_WRONLY : Nat := 1

/-- Read-write access mode. -/
def O_RDWR : Nat := 2

/-- Create the file when it does not exist. -/
def O_CREATE : Nat := 64

/-- An open `*os.File`: its path and whether the descriptor may be written. -/
structure Handle where
  name : GoString
  writable : Bool

/-- Go `os.OpenFile(name, flag, 0o644)` for the flags above: an absent file is
created empty when the create bit is set and the path can be written; the
descriptor is writable only when the access mode of the flag is `O_WRONLY` or
`O_RDWR`. `none` is the error result. -/
def OpenFile {E : Type} (name : GoString) (flag : Nat) (w : World E) :
    Option (Handle × World E) :=
  let h : Handle := { name := name, writable := flag % 4 = O_WRONLY || flag % 4 = O_RDWR }
  match w.files name with
  | some _ => some (h, w)
  | none =>
    if flag / O_CREATE % 2 = 1 && !w.noWrite name then
      some (h, { w with files := Function.update w.files name (some ⟨[], false⟩) })
    else none

/-- Go `io.WriteString(file, s)` on a freshly opened file: on a descriptor that
is not writable the write fails (bad file descriptor) and changes nothing;
otherwise `s` replaces the first `len(s)` bytes. The Boolean tells success. -/
def WriteString {E : Type} (file : Handle) (s : GoString) (w : World E) : Bool × World E :=
  if file.writable then
    match w.files file.name with
    | some f =>
      (true, { w with files :=
        Function.update w.files file.name (some { f with data := s ++ f.data.drop s.length }) })
    | none => (false, w)
  else (false, w)

/-- Go `os.Remove`: the Boolean tells success. -/
def Remove {E : Type} (name : GoString) (w : World E) : Bool × World E :=
  match w.files name with
  | some _ =>
    if w.noWrite name then (false, w)
    else (true, { w with files := Function.update w.files name none })
  | none => (false, w)

/-- Modelled from the spec: `git.CmdArgCheck` of the external package gitlib,
which is not part of the sources. The spec says the identifier is rejected
before use when it could be read as a command option; the check refuses
(`none`, a panic in the library) an argument that starts with a dash and
passes any other argument unchanged. -/
def CmdArgCheck (s : GoString) : Option GoString :=
  if s.head? = some '-' then none else some s

/-! ## git.go: resync -/

/-- The marker file of a node: `path.Join(node, "outofsync")`. -/
def markerPath (node : GoString) : GoString := pathJoin [node, "outofsync".toList]

/-- The `remote add sync <peer>` invocation of `syncNode` (line 151). -/
def remoteAdd (failedNode valid : GoString) : Invocation :=
  ⟨["remote".toList, "add".toList, "sync".toList, valid], failedNode, []⟩

/-- The `fetch sync` invocation of `syncNode` (line 158). -/
def fetchSync (failedNode : GoString) : Invocation :=
  ⟨["fetch".toList, "sync".toList], failedNode, []⟩

/-- The `remote rm sync` invocation of `syncNode` (line 165). -/
def remoteRm (failedNode : GoString) : Invocation :=
  ⟨["remote".toList, "rm".toList, "sync".toList], failedNode, []⟩

/-- Model of `syncNode` (git.go lines 135-177). Logging is left out. -/
def syncNode {E : Type} (x : Executor E) (failedNode : GoString) (w : World E) :
    Exit × World E :=
  let filename := markerPath failedNode
  match w.files filename with
  | none => (Exit.returned, w)
  | some file =>
    if file.readFails then (Exit.returned, w)
    else
      let valid := TrimSpace file.data
      match CmdArgCheck valid with
      | none => (Exit.panicked, w)
      | some arg =>
        let r1 := run x (remoteAdd failedNode arg) w
        if r1.1.err.isSome then (Exit.returned, r1.2)
        else
          let r2 := run x (fetchSync failedNode) r1.2
          if r2.1.err.isSome then (Exit.returned, r2.2)
          else
            let r3 := run x (remoteRm failedNode) r2.2
            if r3.1.err.isSome then (Exit.returned, r3.2)
            else (Exit.returned, (Remove filename r3.2).2)

/-- Model of `lockFile` (main.go lines 196-206): the file is opened with the
flag `os.O_CREATE` alone, which carries no access mode and so opens it
read-only; the error of the write that follows is dropped. -/
def lockFile {E : Type} (node healthy : GoString) (w : World E) : World E :=
  let filename := markerPath node
  match OpenFile filename O_CREATE w with
  | none => w
  | some (file, w1) => (WriteString file healthy w1).2

/-! ## git.go and main.go: the service endpoints -/

/-- The part of an `*http.Request` the handlers read: `r.FormValue(key)` and
`r.Header.Get(key)` (the empty string when absent). -/
structure Request where
  FormValue : GoString → GoString
  Header : GoString → GoString

/-- A request body as `io.Reader`: whether it starts with a gzip header, which
is what `gzip.NewReader` checks. -/
structure Reader where
  gzipHeader : Bool

/-- The type `serviceConfig` of git.go (lines 24-28). -/
structure serviceConfig where
  UploadPack : Bool
  ReceivePack : Bool
  Env : List GoString

/-- The type `serviceHandler` of git.go (lines 30-37); its response writer `w`
is the `resp` of the world. -/
structure serviceHandler where
  cfg : serviceConfig
  r : Request
  body : Option Reader
  dir : GoString
  environ : List GoString

/-- Go `http.StatusOK`. -/
def StatusOK : Nat := 200

/-- Go `http.StatusUnauthorized`. -/
def StatusUnauthorized : Nat := 401

/-- Go `http.StatusInternalServerError`. -/
def StatusInternalServerError : Nat := 500

/-- The status code the server sends once the handler has returned: the one
written, or 200 when the handler wrote none. -/
def sentStatus (r : ResponseWriter) : Nat := r.status.getD StatusOK

/-- Go `ResponseWriter.WriteHeader`: the first status code written stays. -/
def WriteHeader {E : Type} (code : Nat) (w : World E) : World E :=
  match w.resp.status with
  | some _ => w
  | none => { w with resp := { w.resp with status := some code } }

/-- Go `ResponseWriter.Write`: writes the status 200 first when none was
written, then appends to the body. -/
def respWrite {E : Type} (b : GoString) (w : World E) : World E :=
  let w1 := WriteHeader StatusOK w
  { w1 with resp := { w1.resp with body := w1.resp.body ++ b } }

/-- Go `w.Header().Set(key, value)`. -/
def HeaderSet {E : Type} (key value : GoString) (w : World E) : World E :=
  { w with resp := { w.resp with
      header := (w.resp.header.filter (fun kv => kv.1 ≠ key)) ++ [(key, value)] } }

/-- Model of `setHeaderNoCache` (git.go lines 39-43). -/
def setHeaderNoCache {E : Type} (w : World E) : World E :=
  HeaderSet "Cache-Control".toList "no-cache, max-age=0, must-revalidate".toList
    (HeaderSet "Pragma".toList "no-cache".toList
      (HeaderSet "Expires".toList "Fri, 01 Jan 1980 00:00:00 GMT".toList w))

/-- One `key=value` token of the Git-Protocol header: both sides non-empty and
alphanumeric. -/
def keyValue (tok : GoString) : Bool :=
  match splitOn '=' tok with
  | [k, v] => k ≠ [] && v ≠ [] && k.all Char.isAlphanum && v.all Char.isAlphanum
  | _ => false

/-- The regular expression `safeGitProtocolHeader` (git.go line 22) as a
matcher: one or more `key=value` tokens separated by colons. -/
def safeGitProtocolHeader (s : GoString) : Bool :=
  (splitOn ':' s).all keyValue

/-- The error `fmt.Errorf("service %q is not allowed", service)` of git.go line
53, kept as the service it names. -/
structure ServiceError where
  service : GoString
deriving DecidableEq

/-- Model of `prepareGitCmdWithAllowedService` (git.go lines 45-54): the
arguments of the new command, or the error naming the refused service. -/
def prepareGitCmdWithAllowedService (service : GoString) (h : serviceHandler) :
    Except ServiceError (List GoString) :=
  if service = "receive-pack".toList && h.cfg.ReceivePack then
    Except.ok ["receive-pack".toList]
  else if service = "upload-pack".toList && h.cfg.UploadPack then
    Except.ok ["upload-pack".toList]
  else
    Except.error ⟨service⟩

/-- A value of type `chan<- result` handed to `serviceRPC`: nil, or the channel
`gitResult` of the request. -/
inductive ResultChan where
  | nil
  | gitResult
deriving DecidableEq

/-- The statement `resultChan <- res`: a send on the nil channel blocks for
ever; a send on the buffered channel of the request appends. -/
def send {E : Type} (resultChan : ResultChan) (res : result) (w : World E) : Exit × World E :=
  match resultChan with
  | ResultChan.nil => (Exit.blocked, w)
  | ResultChan.gitResult => (Exit.returned, { w with gitResult := w.gitResult ++ [res] })

/-- The service invocation of `serviceRPC` (lines 92-101). -/
def serviceInvocation {E : Type} (h : serviceHandler) (cmd environ : List GoString)
    (w : World E) : Invocation :=
  ⟨cmd ++ ["--stateless-rpc".toList, h.dir], h.dir, w.osEnviron ++ environ⟩

/-- The rest of `serviceRPC` once the request body is settled (git.go lines
84-116): the environment, the run of the service command with its standard
output going to the response writer, and the result put on the channel. -/
def serviceRun {E : Type} (x : Executor E) (h : serviceHandler) (service : GoString)
    (cmd : List GoString) (resultChan : ResultChan) (w0 : World E) : Exit × World E :=
  let environ := h.environ ++ ["SSH_ORIGINAL_COMMAND=".toList ++ service]
  let protocol := h.r.Header "Git-Protocol".toList
  let environ :=
    if protocol ≠ [] && safeGitProtocolHeader protocol then
      environ ++ ["GIT_PROTOCOL=".toList ++ protocol]
    else environ
  let r := run x (serviceInvocation h cmd environ w0) w0
  let w1 := if r.1.stdout = [] then r.2 else respWrite r.1.stdout r.2
  match r.1.err with
  | some err => send resultChan ⟨h.dir, some err⟩ w1
  | none =>
    if resultChan ≠ ResultChan.nil then send resultChan ⟨h.dir, none⟩ w1
    else (Exit.returned, w1)

/-- Model of `serviceRPC` (git.go lines 56-117). Logging is left out. With a
gzip content encoding, `gzip.NewReader` fails on a body without a gzip header
(and dereferences a nil body). -/
def serviceRPC {E : Type} (x : Executor E) (h : serviceHandler) (service : GoString)
    (resultChan : ResultChan) (w : World E) : Exit × World E :=
  match syncNode x h.dir w with
  | (Exit.panicked, w0) => (Exit.panicked, w0)
  | (_, w0) =>
    let expectedContentType := "application/x-git-".toList ++ service ++ "-request".toList
    if h.r.Header "Content-Type".toList ≠ expectedContentType then
      (Exit.returned, WriteHeader StatusUnauthorized w0)
    else
      match prepareGitCmdWithAllowedService service h with
      | Except.error _ => (Exit.returned, WriteHeader StatusUnauthorized w0)
      | Except.ok cmd =>
        if h.r.Header "Content-Encoding".toList = "gzip".toList then
          match h.body with
          | none => (Exit.panicked, w0)
          | some body =>
            if body.gzipHeader then serviceRun x h service cmd resultChan w0
            else (Exit.returned, WriteHeader StatusInternalServerError w0)
        else serviceRun x h service cmd resultChan w0

/-- Model of `getServiceType` (git.go lines 119-125). -/
def getServiceType (r : Request) : GoString :=
  let serviceType := r.FormValue "service".toList
  if !HasPrefix serviceType "git-".toList then []
  else TrimPrefix serviceType "git-".toList

/-- The constant `node1` of main.go. -/
def node1 : GoString := "/Users/enver/Projects/gitscale/repos/node1.git".toList

/-- The constant `node2` of main.go. -/
def node2 : GoString := "/Users/enver/Projects/gitscale/repos/node2.git".toList

/-- The constant `node3` of main.go. -/
def node3 : GoString := "/Users/enver/Projects/gitscale/repos/node3.git".toList

/-- The variable `nodes` of main.go. -/
def nodes : List GoString := [node1, node2, node3]

/-- Model of `infoRefsHandler` (main.go lines 50-81). -/
def infoRefsHandler {E : Type} (x : Executor E) (r : Request) (w : World E) :
    Exit × World E :=
  match syncNode x node3 w with
  | (Exit.panicked, w0) => (Exit.panicked, w0)
  | (_, w0) =>
    let h : serviceHandler :=
      { cfg := { UploadPack := true, ReceivePack := true, Env := [] },
        r := r, body := none, dir := node1, environ := [] }
    let w1 := setHeaderNoCache w0
    let service := getServiceType h.r
    match prepareGitCmdWithAllowedService service h with
    | Except.ok cmd =>
      let protocol := h.r.Header "Git-Protocol".toList
      let environ :=
        if protocol ≠ [] && safeGitProtocolHeader protocol then
          h.environ ++ ["GIT_PROTOCOL=".toList ++ protocol]
        else h.environ
      let environ := w1.osEnviron ++ environ
      let r := run x
        ⟨cmd ++ ["--stateless-rpc".toList, "--advertise-refs".toList, ".".toList], h.dir, environ⟩ w1
      let w2 := HeaderSet "Content-Type".toList
        ("application/x-git-".toList ++ service ++ "-advertisement".toList) r.2
      let w3 := WriteHeader StatusOK w2
      let w4 := respWrite (packetWrite ("# service=git-".toList ++ service ++ "\n".toList)) w3
      let w5 := respWrite "0000".toList w4
      (Exit.returned, respWrite r.1.stdout w5)
    | Except.error _ => (Exit.returned, w1)

/-- Model of `uploadPackHandler` (main.go lines 83-100). -/
def uploadPackHandler {E : Type} (x : Executor E) (r : Request) (body : Reader)
    (w : World E) : Exit × World E :=
  let h : serviceHandler :=
    { cfg := { UploadPack := true, ReceivePack := false, Env := [] },
      r := r, body := some body, dir := node2, environ := [] }
  let w1 := HeaderSet "Content-Type".toList "application/x-git-upload-pack-result".toList w
  serviceRPC x h "upload-pack".toList ResultChan.nil w1

/-- The per-node task of `receivePackHandler` (main.go lines 146-158) for the
node of index `i`, reading from the pipe `reader`. -/
def nodeTask {E : Type} (x : Executor E) (r : Request) (reader : Reader) (i : Nat)
    (w : World E) : Exit × World E :=
  let h : serviceHandler :=
    { cfg := { UploadPack := false, ReceivePack := true, Env := [] },
      r := r, body := some reader, dir := nodes.getD i [], environ := [] }
  serviceRPC x h "receive-pack".toList ResultChan.gitResult w

/-- What the `select` of the collector picks in one round: the cancellation
signal of the request, or the next result of the channel. -/
inductive Event where
  | done
  | recv (res : result)

/-- The local variables of the collector goroutine (main.go lines 164-166). -/
structure Collector where
  slice : List result
  failed : List GoString
  healthy : GoString

/-- How the labelled loop of the collector ends: by `break loop`, by the
`return` of the cancellation case, or never (it waits for an event). -/
inductive LoopExit where
  | broke
  | cancelled
  | waiting
deriving DecidableEq

/-- The loop of the collector goroutine (main.go lines 167-187) over the events
its `select` picks, in order. -/
def collectorLoop {E : Type} (n : Nat) :
    List Event → Collector → World E → LoopExit × Collector × World E
  | [], c, w => (LoopExit.waiting, c, w)
  | Event.done :: _, c, w => (LoopExit.cancelled, c, w)
  | Event.recv res :: rest, c, w =>
    let w1 := if res.err.isSome then lockFile res.node c.healthy w else w
    let failed := if res.err.isSome then c.failed ++ [res.node] else c.failed
    let healthy := if c.healthy = [] then res.node else c.healthy
    let slice := c.slice ++ [res]
    let c1 : Collector := { slice := slice, failed := failed, healthy := healthy }
    if slice.length = n then (LoopExit.broke, c1, w1)
    else collectorLoop n rest c1 w1

/-- The collector goroutine of `receivePackHandler` (main.go lines 162-191) for
a node list of length `n`: the loop, then the second marking pass when the loop
ended by `break`. -/
def collector {E : Type} (n : Nat) (events : List Event) (w : World E) :
    LoopExit × Collector × World E :=
  match collectorLoop n events ⟨[], [], []⟩ w with
  | (LoopExit.broke, c, w1) =>
    (LoopExit.broke, c, c.failed.foldl (fun w2 val => lockFile val c.healthy w2) w1)
  | other => other

/-! ### Sample worlds, executors and requests -/

/-- A world with no file at all and nothing done yet. -/
def emptyWorld : World Unit :=
  { files := fun _ => none, noWrite := fun _ => false, osEnviron := [], git := (),
    invocations := [], resp := ⟨[], none, []⟩, gitResult := [] }

/-- An executor whose every run succeeds with no output. -/
def okExecutor : Executor Unit := ⟨fun _ e => (⟨[], none⟩, e)⟩

/-- A request with the given `service` form value and `Content-Type` header and
nothing else. -/
def sampleRequest (service contentType : GoString) : Request :=
  { FormValue := fun k => if k = "service".toList then service else [],
    Header := fun k => if k = "Content-Type".toList then contentType else [] }

/-- The three results the collector receives when the executor of `node2`
fails and those of `node1` and `node3` succeed, `node1` reporting first. -/
def sampleEvents : List Event :=
  [Event.recv ⟨node1, none⟩, Event.recv ⟨node2, some "exit status 1".toList⟩,
   Event.recv ⟨node3, none⟩]

/-- A world whose only file is the marker of `node3`, naming a peer with white
space around the name. -/
def markedWorld : World Unit :=
  { emptyWorld with
    files := fun name =>
      if name = markerPath node3 then some ⟨" /repos/node1.git\n".toList, false⟩ else none }

/-- An executor whose `fetch` runs fail and whose other runs succeed. -/
def fetchFails : Executor Unit :=
  ⟨fun inv e =>
    (⟨[], if inv.args.head? = some "fetch".toList then some "exit status 128".toList else none⟩, e)⟩

/-- A request with the content type of receive-pack and a gzip content
encoding. -/
def gzipRequest : Request :=
  { FormValue := fun _ => [],
    Header := fun k =>
      if k = "Content-Type".toList then "application/x-git-receive-pack-request".toList
      else if k = "Content-Encoding".toList then "gzip".toList else [] }

/-- The three per-node tasks of one receive-pack request, run one after the
other in node order on pipes without a gzip header. -/
def nodeTasks {E : Type} (x : Executor E) (r : Request) (w : World E) : World E :=
  (nodeTask x r ⟨false⟩ 2 (nodeTask x r ⟨false⟩ 1 (nodeTask x r ⟨false⟩ 0 w).2).2).2

/-! ## Broadcast writer: lemmas -/

theorem errs_foldl_eq {ε : Type} (l : List (nAndErrType ε)) (acc : List ε) :
    l.foldl (fun errs val =>
      match val.err with
      | some e => errs ++ [e]
      | none => errs) acc = acc ++ l.filterMap (fun val => val.err) := by
  induction l generalizing acc with
  | nil => simp
  | cons a t ih =>
    rw [List.foldl_cons, ih]
    cases h : a.err <;> simp [List.filterMap_cons, h]

theorem errs_eq_filterMap {ε : Type} (l : List (nAndErrType ε)) :
    asyncMultiWriter.errs l = l.filterMap (fun val => val.err) := by
  unfold asyncMultiWriter.errs
  rw [errs_foldl_eq]; simp

theorem Write_fst {σ ε : Type} (writers : List (Sink σ ε)) (sched : List Nat)
    (p : Bytes) (s : σ) :
    (asyncMultiWriter.Write writers sched p s).1 = (p.length : Int) := by
  unfold asyncMultiWriter.Write
  dsimp only
  split <;> rfl

theorem Write_snd {σ ε : Type} (writers : List (Sink σ ε)) (sched : List Nat)
    (p : Bytes) (s : σ) :
    (asyncMultiWriter.Write writers sched p s).2
      = errorsJoin (((asyncMultiWriter.run writers sched p s).nAndErrs.filterMap
          (fun val => val.err)).map some) := by
  unfold asyncMultiWriter.Write
  dsimp only
  rw [errs_eq_filterMap]
  split
  · rfl
  · next h =>
    have : (asyncMultiWriter.run writers sched p s).nAndErrs.filterMap (fun val => val.err) = [] := by
      apply List.eq_nil_of_length_eq_zero; omega
    simp [this, errorsJoin]

theorem AsyncMultiWriter_foldl {σ ε : Type} (ws : List (Writer σ ε)) (acc : List (Sink σ ε)) :
    ws.foldl (fun allWriters w =>
      match w with
      | Writer.asyncMultiWriter mw => allWriters ++ mw
      | Writer.other w => allWriters ++ [w]) acc = acc ++ (ws.map Writer.sinks).flatten := by
  induction ws generalizing acc with
  | nil => simp
  | cons w t ih =>
    rw [List.foldl_cons, ih]
    cases w <;> simp [Writer.sinks]

theorem pick_map {α β : Type} (f : α → β) : ∀ (k : Nat) (l : List α),
    pick k (l.map f) = (pick k l).map (fun r => (f r.1, r.2.map f)) := by
  intro k l
  induction l generalizing k with
  | nil => cases k <;> rfl
  | cons a t ih =>
    cases k with
    | zero => rfl
    | succ k =>
      simp only [List.map_cons, pick]
      rw [ih k]
      cases pick k t <;> rfl

theorem pick_perm {α : Type} : ∀ (k : Nat) (l : List α) (a : α) (rest : List α),
    pick k l = some (a, rest) → l.Perm (a :: rest) := by
  intro k l
  induction l generalizing k with
  | nil => intro a rest h; cases k <;> cases h
  | cons b t ih =>
    intro a rest h
    cases k with
    | zero =>
      simp only [pick, Option.some.injEq, Prod.mk.injEq] at h
      rw [h.1, h.2]
    | succ k =>
      simp only [pick] at h
      cases hp : pick k t with
      | none => rw [hp] at h; cases h
      | some r =>
        rw [hp] at h
        simp only [Option.map_some', Option.some.injEq, Prod.mk.injEq] at h
        have hperm := ih k r.1 r.2 hp
        rw [← h.1, ← h.2]
        exact (List.Perm.cons b hperm).trans (List.Perm.swap r.1 b r.2)

theorem pick_none {α : Type} : ∀ (k : Nat) (l : List α), pick k l = none → l.length ≤ k := by
  intro k l
  induction l generalizing k with
  | nil => intro _; exact Nat.zero_le _
  | cons b t ih =>
    intro h
    cases k with
    | zero => cases h
    | succ k =>
      simp only [pick] at h
      cases hp : pick k t with
      | none =>
        have := ih k hp
        simp only [List.length_cons]
        omega
      | some r => rw [hp] at h; cases h

theorem pick_mod_none {α : Type} (c : Nat) (l : List α)
    (h : pick (c % l.length) l = none) : l = [] := by
  have hle := pick_none _ _ h
  cases l with
  | nil => rfl
  | cons a t =>
    have : c % (a :: t).length < (a :: t).length := Nat.mod_lt _ (by simp)
    omega

theorem tracedFrom_length {σ ε : Type} : ∀ (n : Nat) (ws : List (Sink σ ε)),
    (tracedFrom n ws).length = ws.length := by
  intro n ws
  induction ws generalizing n with
  | nil => rfl
  | cons w t ih => simp only [tracedFrom, List.length_cons, ih]

theorem spawn_length {σ ε : Type} : ∀ (n : Nat) (ws : List (Sink σ ε)),
    (spawn n ws).length = ws.length := by
  intro n ws
  induction ws generalizing n with
  | nil => rfl
  | cons w t ih => simp only [spawn, List.length_cons, ih]

theorem spawn_tracedFrom {σ ε : Type} : ∀ (n : Nat) (ws : List (Sink σ ε)),
    spawn n (tracedFrom n ws) = (spawn n ws).map traceGoroutine := by
  intro n ws
  induction ws generalizing n with
  | nil => rfl
  | cons w t ih =>
    simp only [tracedFrom, spawn, List.map_cons, ih]
    rfl

theorem spawn_indices {σ ε : Type} (p : Bytes) : ∀ (n : Nat) (ws : List (Sink σ ε)),
    (spawn n ws).map (fun g => (g.1, p)) = (List.range' n ws.length).map (fun i => (i, p)) := by
  intro n ws
  induction ws generalizing n with
  | nil => rfl
  | cons w t ih =>
    simp only [spawn, List.map_cons, List.length_cons, List.range'_succ, ih]

/-- Running goroutines whose writers record their calls: the world and
`nAndErrs` are those of the run without recording, and the log grows by one
entry per pending goroutine, its index with the chunk `p`, in some order. -/
theorem runGoroutines_traced {σ ε : Type} (p : Bytes) : ∀ (fuel : Nat) (sched : List Nat)
    (hs : List (Nat × Sink σ ε)) (st : WriteState σ ε) (log : List (Nat × Bytes)),
    hs.length ≤ fuel →
    ∃ L : List (Nat × Bytes), L.Perm (hs.map (fun g => (g.1, p)))
      ∧ runGoroutines p fuel sched (hs.map traceGoroutine)
          { world := (st.world, log), nAndErrs := st.nAndErrs }
        = { world := ((runGoroutines p fuel sched hs st).world, log ++ L),
            nAndErrs := (runGoroutines p fuel sched hs st).nAndErrs } := by
  intro fuel
  induction fuel with
  | zero =>
    intro sched hs st log hlen
    have hnil : hs = [] := List.eq_nil_of_length_eq_zero (Nat.le_zero.mp hlen)
    subst hnil
    exact ⟨[], List.Perm.refl _, by simp [runGoroutines]⟩
  | succ fuel ih =>
    intro sched hs st log hlen
    cases hp : pick (sched.headD 0 % hs.length) hs with
    | none =>
      have hnil : hs = [] := pick_mod_none _ _ hp
      subst hnil
      exact ⟨[], List.Perm.refl _, by simp [runGoroutines, pick]⟩
    | some r =>
      obtain ⟨g, rest⟩ := r
      have hperm := pick_perm _ _ _ _ hp
      have hrest : rest.length ≤ fuel := by
        have := hperm.length_eq
        simp only [List.length_cons] at this
        omega
      obtain ⟨L, hL, hrun⟩ := ih sched.tail rest (goroutine p st g.1 g.2) (log ++ [(g.1, p)]) hrest
      refine ⟨(g.1, p) :: L, ?_, ?_⟩
      · have hmap : (hs.map (fun g : Nat × Sink σ ε => (g.1, p))).Perm
            ((g.1, p) :: rest.map (fun g : Nat × Sink σ ε => (g.1, p))) :=
          hperm.map (fun g : Nat × Sink σ ε => (g.1, p))
        exact (List.Perm.cons _ hL).trans hmap.symm
      · have hpt : pick (sched.headD 0 % (hs.map traceGoroutine).length) (hs.map traceGoroutine)
            = some (traceGoroutine g, rest.map traceGoroutine) := by
          rw [List.length_map, pick_map, hp]
          rfl
        have hstep : goroutine p
            { world := (st.world, log), nAndErrs := st.nAndErrs }
            (traceGoroutine g).1 (traceGoroutine g).2
            = { world := ((goroutine p st g.1 g.2).world, log ++ [(g.1, p)]),
                nAndErrs := (goroutine p st g.1 g.2).nAndErrs } := rfl
        have hl : runGoroutines p (fuel + 1) sched (hs.map traceGoroutine)
            { world := (st.world, log), nAndErrs := st.nAndErrs }
            = runGoroutines p fuel sched.tail (rest.map traceGoroutine)
                { world := ((goroutine p st g.1 g.2).world, log ++ [(g.1, p)]),
                  nAndErrs := (goroutine p st g.1 g.2).nAndErrs } := by
          rw [runGoroutines, hpt]
          simp only [hstep]
        have hr : runGoroutines p (fuel + 1) sched hs st
            = runGoroutines p fuel sched.tail rest (goroutine p st g.1 g.2) := by
          rw [runGoroutines, hp]
        rw [hl, hr, hrun, List.append_assoc]
        rfl

/-- The run of `asyncMultiWriter.Write` on recording sinks: the same world and
`nAndErrs` as without recording, and a log that is a rearrangement of one entry
per sink index, each with the chunk `p`. -/
theorem run_traced {σ ε : Type} (writers : List (Sink σ ε)) (sched : List Nat)
    (p : Bytes) (s : σ) :
    ∃ L : List (Nat × Bytes), L.Perm ((List.range writers.length).map (fun i => (i, p)))
      ∧ asyncMultiWriter.run (traced writers) sched p (s, [])
        = { world := ((asyncMultiWriter.run writers sched p s).world, L),
            nAndErrs := (asyncMultiWriter.run writers sched p s).nAndErrs } := by
  obtain ⟨L, hL, hrun⟩ := runGoroutines_traced p writers.length sched (spawn 0 writers)
    { world := s, nAndErrs := List.replicate writers.length ⟨0, none⟩ } []
    (Nat.le_of_eq (spawn_length 0 writers))
  refine ⟨L, ?_, ?_⟩
  · rw [List.range_eq_range', ← spawn_indices p 0 writers]
    exact hL
  · unfold asyncMultiWriter.run traced
    rw [tracedFrom_length, spawn_tracedFrom, hrun, List.nil_append]

/-! ## Broadcast writer: the claims -/

/-- C1 (code at the failing input): a sink that accepts 0 of 3 bytes and reports
no error makes `asyncMultiWriter.Write` return `(3, nil)`: the short write is not
turned into an error, while the sibling `multiWriter.Write` reports it as an
`ErrWrite` with index 0 wrapping the short-write error. -/
theorem asyncWrite_short_write_not_reported :
    (shortSink.Write [1, 2, 3] ()).1.n = 0
    ∧ (shortSink.Write [1, 2, 3] ()).1.err = none
    ∧ asyncMultiWriter.Write [shortSink] [0] [1, 2, 3] () = (3, none)
    ∧ (multiWriter.Write [shortSink] [1, 2, 3] ()).1 = (3, some ⟨[⟨0, none⟩]⟩) := by
  decide

/-- C2: for every list of sinks, every chunk `p` and every choice of the
scheduler, one `asyncMultiWriter.Write(p)` calls the `Write` of every sink
exactly once and hands it the whole chunk `p`, whatever the sinks return. With
every sink made to record the chunk it is handed under its position, the log
after the call is a rearrangement of one entry `(i, p)` per position `i`, and
recording changes neither the world, nor `nAndErrs`, nor the returned count and
error. -/
theorem asyncWrite_calls_every_sink_once {σ ε : Type} (writers : List (Sink σ ε))
    (sched : List Nat) (p : Bytes) (s : σ) :
    (asyncMultiWriter.run (traced writers) sched p (s, [])).world.2.Perm
        ((List.range writers.length).map (fun i => (i, p)))
    ∧ (asyncMultiWriter.run (traced writers) sched p (s, [])).world.2.length = writers.length
    ∧ (List.range writers.length).all (fun i =>
        decide ((asyncMultiWriter.run (traced writers) sched p (s, [])).world.2.countP
          (fun c => decide (c.1 = i)) = 1)) = true
    ∧ (asyncMultiWriter.run (traced writers) sched p (s, [])).world.2.all
        (fun c => decide (c.1 < writers.length) && decide (c.2 = p)) = true
    ∧ (asyncMultiWriter.run (traced writers) sched p (s, [])).world.1
        = (asyncMultiWriter.run writers sched p s).world
    ∧ (asyncMultiWriter.run (traced writers) sched p (s, [])).nAndErrs
        = (asyncMultiWriter.run writers sched p s).nAndErrs
    ∧ asyncMultiWriter.Write (traced writers) sched p (s, [])
        = asyncMultiWriter.Write writers sched p s := by
  obtain ⟨L, hperm, hrun⟩ := run_traced writers sched p s
  have hlog : (asyncMultiWriter.run (traced writers) sched p (s, [])).world.2 = L := by
    rw [hrun]
  have hne : (asyncMultiWriter.run (traced writers) sched p (s, [])).nAndErrs
      = (asyncMultiWriter.run writers sched p s).nAndErrs := by
    rw [hrun]
  rw [hlog]
  refine ⟨hperm, ?_, ?_, ?_, by rw [hrun], hne, ?_⟩
  · rw [hperm.length_eq]; simp
  · rw [List.all_eq_true]
    intro i hi
    apply decide_eq_true
    rw [hperm.countP_eq, List.countP_map]
    have hc : List.count i (List.range writers.length) = 1 :=
      List.count_eq_one_of_mem (List.nodup_range _) hi
    rw [List.count_eq_countP] at hc
    rw [← hc]
    apply List.countP_congr
    intro x _
    simp
  · rw [List.all_eq_true]
    intro c hc
    have := hperm.mem_iff.mp hc
    simp only [List.mem_map, List.mem_range] at this
    obtain ⟨i, hi, rfl⟩ := this
    simp [hi]
  · unfold asyncMultiWriter.Write
    rw [hne]

/-- C2, at two sinks of which the second fails, the scheduler running the
second goroutine first: the log of the recorded calls is sink 1 with the whole
chunk, then sink 0 with the whole chunk. -/
theorem asyncWrite_calls_every_sink_once_witness :
    (asyncMultiWriter.run (traced [okSink, failSink "boom".toList]) [1, 0] [7, 8] ((), [])).world.2
      = [(1, [7, 8]), (0, [7, 8])]
    ∧ (asyncMultiWriter.run (traced [okSink, failSink "boom".toList]) [1, 0] [7, 8]
        ((), [])).world.2.Perm ((List.range 2).map (fun i => (i, [7, 8]))) :=
  ⟨by decide,
   (asyncWrite_calls_every_sink_once [okSink, failSink "boom".toList] [1, 0] [7, 8] ()).1⟩

/-- C3 (code at the failing input): with two sinks of which exactly one fails,
`asyncMultiWriter.Write` returns the same error value whether the failing sink
is the one of index 0 or the one of index 1: the aggregate holds the error the
sink returned and no sink index, while the sibling `multiWriter.Write` wraps it
in an `ErrWrite` carrying the index. -/
theorem asyncWrite_error_carries_no_index :
    asyncMultiWriter.Write [failSink "boom".toList, okSink] [0, 1] [1, 2, 3] ()
      = (3, some ⟨["boom".toList]⟩)
    ∧ asyncMultiWriter.Write [okSink, failSink "boom".toList] [0, 1] [1, 2, 3] ()
      = (3, some ⟨["boom".toList]⟩)
    ∧ (multiWriter.Write [failSink "boom".toList, okSink] [1, 2, 3] ()).1
      = (3, some ⟨[⟨0, some "boom".toList⟩]⟩)
    ∧ (multiWriter.Write [okSink, failSink "boom".toList] [1, 2, 3] ()).1
      = (3, some ⟨[⟨1, some "boom".toList⟩]⟩) := by
  decide

/-- C4: `AsyncMultiWriter(A, AsyncMultiWriter(B, C))` is the broadcast writer
over the sinks `[A, B, C]`, the same value as `AsyncMultiWriter(A, B, C)`, so
one `Write` on either runs the same sink calls, leaves the same state and
returns the same count and error; in general the sink list of
`AsyncMultiWriter(ws)` is the concatenation, in order, of the sink lists of the
arguments. -/
theorem AsyncMultiWriter_flattens {σ ε : Type} (A B C : Sink σ ε) :
    AsyncMultiWriter [Writer.other A, AsyncMultiWriter [Writer.other B, Writer.other C]]
      = Writer.asyncMultiWriter [A, B, C]
    ∧ AsyncMultiWriter [Writer.other A, Writer.other B, Writer.other C]
      = Writer.asyncMultiWriter [A, B, C]
    ∧ (∀ (sched : List Nat) (p : Bytes) (s : σ),
        asyncMultiWriter.run
            (AsyncMultiWriter [Writer.other A,
              AsyncMultiWriter [Writer.other B, Writer.other C]]).sinks sched p s
          = asyncMultiWriter.run
            (AsyncMultiWriter [Writer.other A, Writer.other B, Writer.other C]).sinks sched p s
        ∧ asyncMultiWriter.Write
            (AsyncMultiWriter [Writer.other A,
              AsyncMultiWriter [Writer.other B, Writer.other C]]).sinks sched p s
          = asyncMultiWriter.Write
            (AsyncMultiWriter [Writer.other A, Writer.other B, Writer.other C]).sinks sched p s)
    ∧ (∀ ws : List (Writer σ ε),
        (AsyncMultiWriter ws).sinks = (ws.map Writer.sinks).flatten) := by
  have h1 : AsyncMultiWriter [Writer.other A, AsyncMultiWriter [Writer.other B, Writer.other C]]
      = Writer.asyncMultiWriter [A, B, C] := rfl
  have h2 : AsyncMultiWriter [Writer.other A, Writer.other B, Writer.other C]
      = Writer.asyncMultiWriter [A, B, C] := rfl
  refine ⟨h1, h2, ?_, ?_⟩
  · intro sched p s
    rw [h1, h2]
    exact ⟨rfl, rfl⟩
  · intro ws
    unfold AsyncMultiWriter
    simp only [Writer.sinks]
    rw [AsyncMultiWriter_foldl]
    simp

/-! ## Markers and resync: lemmas -/

theorem run_files {E : Type} (x : Executor E) (inv : Invocation) (w : World E) :
    (run x inv w).2.files = w.files := rfl

theorem run_noWrite {E : Type} (x : Executor E) (inv : Invocation) (w : World E) :
    (run x inv w).2.noWrite = w.noWrite := rfl

theorem run_invocations {E : Type} (x : Executor E) (inv : Invocation) (w : World E) :
    (run x inv w).2.invocations = w.invocations ++ [inv] := rfl

theorem run_git {E : Type} (x : Executor E) (inv : Invocation) (w : World E) :
    (run x inv w).2.git = (x.Run inv w.git).2 := rfl

theorem run_result {E : Type} (x : Executor E) (inv : Invocation) (w : World E) :
    (run x inv w).1 = (x.Run inv w.git).1 := rfl

theorem Remove_invocations {E : Type} (name : GoString) (w : World E) :
    (Remove name w).2.invocations = w.invocations := by
  unfold Remove
  split
  · split <;> rfl
  · rfl

theorem Remove_files {E : Type} (name : GoString) (w : World E) (f : File)
    (hf : w.files name = some f) :
    (Remove name w).2.files name = if w.noWrite name then some f else none := by
  unfold Remove
  rw [hf]
  dsimp only
  split
  · simp [hf]
  · simp

/-- The marker file after `lockFile`: a file that was there is left as it was,
an absent one is created empty (when the path can be written); the peer name is
never stored, the descriptor being read-only. -/
theorem lockFile_marker {E : Type} (node healthy : GoString) (w : World E) :
    (lockFile node healthy w).files (markerPath node)
      = match w.files (markerPath node) with
        | some f => some f
        | none => if w.noWrite (markerPath node) then none else some ⟨[], false⟩ := by
  unfold lockFile OpenFile
  cases hf : w.files (markerPath node) with
  | some f => simp [WriteString, O_CREATE, O_WRONLY, O_RDWR, hf]
  | none =>
    cases hn : w.noWrite (markerPath node) <;>
      simp [WriteString, O_CREATE, O_WRONLY, O_RDWR, hf, hn]

/-- With write access in the flag, the same open-and-write sequence stores the
peer name in a new marker. -/
theorem write_access_stores_peer :
    ((OpenFile (markerPath node2) (O_WRONLY + O_CREATE) emptyWorld).map
        (fun hw => ((WriteString hw.1 node1 hw.2).2.files (markerPath node2)).map (·.data)))
      = some (some node1) := by
  decide

/-! ## Markers and resync: the claims -/

/-- C5 (code at the failing input): three results arrive, `node1` first, and
only the one of `node2` carries an error. The collector ends by `break` with
`healthy = node1`; `node2` gets a marker and `node1`, `node3` get none, but the
marker of `node2` is empty: it does not hold the identifier of `node1`. -/
theorem collector_marker_holds_no_peer :
    (collector 3 sampleEvents emptyWorld).1 = LoopExit.broke
    ∧ (collector 3 sampleEvents emptyWorld).2.1.healthy = node1
    ∧ (collector 3 sampleEvents emptyWorld).2.1.failed = [node2]
    ∧ (collector 3 sampleEvents emptyWorld).2.2.files (markerPath node1) = none
    ∧ (collector 3 sampleEvents emptyWorld).2.2.files (markerPath node3) = none
    ∧ (collector 3 sampleEvents emptyWorld).2.2.files (markerPath node2) = some ⟨[], false⟩
    ∧ (collector 3 sampleEvents emptyWorld).2.2.files (markerPath node2) ≠ some ⟨node1, false⟩ := by
  decide

/-- C6 (counterexample): the marker of `node3` holds a peer name with a leading
blank and a trailing newline; with an executor that never fails, `syncNode`
registers the trimmed name, not the content of the marker. -/
theorem syncNode_registers_trimmed_content :
    markedWorld.files (markerPath node3) = some ⟨" /repos/node1.git\n".toList, false⟩
    ∧ (syncNode okExecutor node3 markedWorld).2.invocations
      = [remoteAdd node3 "/repos/node1.git".toList, fetchSync node3, remoteRm node3]
    ∧ (syncNode okExecutor node3 markedWorld).2.invocations
      ≠ [remoteAdd node3 " /repos/node1.git\n".toList, fetchSync node3, remoteRm node3] := by
  decide

/-- C6 (amended): for a node whose marker is present and readable with content
`X`, where `X` without its surrounding white space does not start with a dash,
`syncNode` runs the executor in the order `remote add sync <X trimmed>`,
`fetch sync`, `remote rm sync` and stops at the first failing run; the marker
is deleted only if all three runs succeeded (and then it is, when the file can
be removed); if the fetch fails the files are unchanged, so the marker is still
there, no `remote rm` is run, and a later `syncNode` reads the marker again and
runs `remote add sync <X trimmed>` first. -/
theorem syncNode_steps {E : Type} (x : Executor E) (node : GoString) (w : World E)
    (file : File) (hfile : w.files (markerPath node) = some file)
    (hread : file.readFails = false)
    (hdash : (TrimSpace file.data).head? ≠ some '-') :
    let add := remoteAdd node (TrimSpace file.data)
    let r1 := x.Run add w.git
    let r2 := x.Run (fetchSync node) r1.2
    let r3 := x.Run (remoteRm node) r2.2
    let out := syncNode x node w
    out.1 = Exit.returned
    ∧ out.2.invocations = w.invocations ++
        (if r1.1.err.isSome then [add]
         else if r2.1.err.isSome then [add, fetchSync node]
         else [add, fetchSync node, remoteRm node])
    ∧ (out.2.files (markerPath node) = none →
        r1.1.err = none ∧ r2.1.err = none ∧ r3.1.err = none)
    ∧ (r1.1.err = none → r2.1.err = none → r3.1.err = none →
        w.noWrite (markerPath node) = false → out.2.files (markerPath node) = none)
    ∧ (r1.1.err = none → r2.1.err.isSome →
        out.2.files = w.files
        ∧ out.2.invocations = w.invocations ++ [add, fetchSync node]
        ∧ (out.2.invocations ++ [add]) <+: (syncNode x node out.2).2.invocations) := by
  intro add r1 r2 r3 out
  have hcheck : CmdArgCheck (TrimSpace file.data) = some (TrimSpace file.data) := by
    unfold CmdArgCheck
    rw [if_neg hdash]
  have hstart : ∀ v : World E, v.files = w.files →
      (v.invocations ++ [add]) <+: (syncNode x node v).2.invocations := by
    intro v hv
    have hvf : v.files (markerPath node) = some file := by rw [hv]; exact hfile
    unfold syncNode
    simp only [hvf, hread, hcheck]
    simp only [Bool.false_eq_true, if_false]
    split
    · rw [run_invocations]
    · split
      · rw [run_invocations, run_invocations]
        exact List.prefix_append _ _
      · split
        · rw [run_invocations, run_invocations, run_invocations, List.append_assoc]
          exact List.prefix_append _ _
        · rw [Remove_invocations, run_invocations, run_invocations, run_invocations,
            List.append_assoc]
          exact List.prefix_append _ _
  have hout : out = syncNode x node w := rfl
  unfold syncNode at hout
  simp only [hfile, hread, hcheck] at hout
  simp only [Bool.false_eq_true, if_false] at hout
  by_cases h1 : r1.1.err.isSome
  · have e1 : (run x (remoteAdd node (TrimSpace file.data)) w).1.err.isSome = true := h1
    rw [if_pos e1] at hout
    have hf : out.2.files (markerPath node) = some file := by rw [hout]; exact hfile
    refine ⟨by rw [hout], by rw [hout, if_pos h1]; rfl, ?_, ?_, ?_⟩
    · intro hn; rw [hf] at hn; cases hn
    · intro hn; rw [hn] at h1; cases h1
    · intro hn; rw [hn] at h1; cases h1
  · have e1 : ¬ (run x (remoteAdd node (TrimSpace file.data)) w).1.err.isSome = true := h1
    rw [if_neg e1] at hout
    have n1 : r1.1.err = none := by
      cases h : r1.1.err with
      | none => rfl
      | some e => rw [h] at h1; exact absurd rfl h1
    by_cases h2 : r2.1.err.isSome
    · have e2 : (run x (fetchSync node)
          (run x (remoteAdd node (TrimSpace file.data)) w).2).1.err.isSome = true := h2
      rw [if_pos e2] at hout
      have hfs : out.2.files = w.files := by rw [hout]; rfl
      have hinv : out.2.invocations = w.invocations ++ [add, fetchSync node] := by
        rw [hout]
        show (w.invocations ++ [add]) ++ [fetchSync node] = _
        simp
      refine ⟨by rw [hout], by rw [hinv, if_neg h1, if_pos h2], ?_, ?_, ?_⟩
      · intro hn; rw [hfs, hfile] at hn; cases hn
      · intro _ hn; rw [hn] at h2; cases h2
      · intro _ _
        exact ⟨hfs, hinv, hstart out.2 hfs⟩
    · have e2 : ¬ (run x (fetchSync node)
          (run x (remoteAdd node (TrimSpace file.data)) w).2).1.err.isSome = true := h2
      rw [if_neg e2] at hout
      have n2 : r2.1.err = none := by
        cases h : r2.1.err with
        | none => rfl
        | some e => rw [h] at h2; exact absurd rfl h2
      by_cases h3 : r3.1.err.isSome
      · have e3 : (run x (remoteRm node) (run x (fetchSync node)
            (run x (remoteAdd node (TrimSpace file.data)) w).2).2).1.err.isSome = true := h3
        rw [if_pos e3] at hout
        have hfs : out.2.files = w.files := by rw [hout]; rfl
        refine ⟨by rw [hout], ?_, ?_, ?_, ?_⟩
        · rw [hout, if_neg h1, if_neg h2]
          show ((w.invocations ++ [add]) ++ [fetchSync node]) ++ [remoteRm node] = _
          simp
        · intro hn; rw [hfs, hfile] at hn; cases hn
        · intro _ _ hn; rw [hn] at h3; cases h3
        · intro _ hn; rw [n2] at hn; cases hn
      · have e3 : ¬ (run x (remoteRm node) (run x (fetchSync node)
            (run x (remoteAdd node (TrimSpace file.data)) w).2).2).1.err.isSome = true := h3
        rw [if_neg e3] at hout
        have n3 : r3.1.err = none := by
          cases h : r3.1.err with
          | none => rfl
          | some e => rw [h] at h3; exact absurd rfl h3
        refine ⟨by rw [hout], ?_, ?_, ?_, ?_⟩
        · rw [hout, if_neg h1, if_neg h2, Remove_invocations]
          show ((w.invocations ++ [add]) ++ [fetchSync node]) ++ [remoteRm node] = _
          simp
        · intro _; exact ⟨n1, n2, n3⟩
        · intro _ _ _ hw
          rw [hout]
          rw [Remove_files (markerPath node) _ file (by exact hfile)]
          have : (run x (remoteRm node) (run x (fetchSync node)
              (run x (remoteAdd node (TrimSpace file.data)) w).2).2).2.noWrite (markerPath node)
              = false := hw
          rw [this]; rfl
        · intro _ hn; rw [n2] at hn; cases hn

/-- C6 (amended), at the marker of `node3` naming `/repos/node1.git` with white
space around it and an executor whose fetch fails: the runs are `remote add`
and `fetch`, and the files are unchanged. -/
theorem syncNode_steps_witness :
    markedWorld.files (markerPath node3) = some ⟨" /repos/node1.git\n".toList, false⟩
    ∧ (TrimSpace " /repos/node1.git\n".toList).head? ≠ some '-'
    ∧ (syncNode fetchFails node3 markedWorld).1 = Exit.returned
    ∧ (syncNode fetchFails node3 markedWorld).2.invocations
      = [remoteAdd node3 "/repos/node1.git".toList, fetchSync node3] :=
  ⟨by decide, by decide,
   (syncNode_steps fetchFails node3 markedWorld ⟨" /repos/node1.git\n".toList, false⟩
      (by decide) rfl (by decide)).1,
   ((syncNode_steps fetchFails node3 markedWorld ⟨" /repos/node1.git\n".toList, false⟩
      (by decide) rfl (by decide)).2.1).trans (by decide)⟩

/-- C7: on a node with no marker file `syncNode` returns at once with the world
unchanged (files, executor state and the log of executor runs), so any number
of calls in succession runs the executor zero times. -/
theorem syncNode_without_marker {E : Type} (x : Executor E) (node : GoString) (w : World E)
    (habsent : w.files (markerPath node) = none) :
    syncNode x node w = (Exit.returned, w)
    ∧ (syncNode x node w).2.invocations = w.invocations
    ∧ ∀ k : Nat, Nat.iterate (fun v => (syncNode x node v).2) k w = w := by
  have h : syncNode x node w = (Exit.returned, w) := by
    unfold syncNode
    simp only [habsent]
  refine ⟨h, by rw [h], ?_⟩
  intro k
  induction k with
  | zero => rfl
  | succ k ih =>
    rw [Function.iterate_succ_apply, h]
    exact ih

/-- C7, at `node3` in a world without files, called five times. -/
theorem syncNode_without_marker_witness :
    emptyWorld.files (markerPath node3) = none
    ∧ (Nat.iterate (fun v => (syncNode okExecutor node3 v).2) 5 emptyWorld).invocations = [] :=
  ⟨rfl, by
    rw [(syncNode_without_marker okExecutor node3 emptyWorld rfl).2.2 5]
    rfl⟩

/-! ## Framing: lemmas -/

theorem hexValue_eq_foldl (s : GoString) : hexValue s = s.foldl hexStep (some 0) := rfl

theorem hexDigitValue_digit : ∀ d, d < 16 → hexDigitValue (digit d) = some d := by
  decide

theorem digit_mem_hex : ∀ d, d < 16 → digit d ∈ "0123456789abcdef".toList := by
  decide

theorem hexStep_digit (v d : Nat) (hd : d < 16) :
    hexStep (some v) (digit d) = some (16 * v + d) := by
  simp [hexStep, hexDigitValue_digit d hd]

/-- What the digit loop produces in base 16: a non-empty run of hexadecimal
digits put in front of `a`, whose value is `u` and whose length is at most
`k + 1` exactly when `u < 16 ^ (k + 1)`. -/
theorem formatBits_spec (fuel : Nat) : ∀ (u : Nat) (a : GoString), u ≤ fuel →
    ∃ ds : GoString, formatBits 16 fuel u a = ds ++ a ∧ ds ≠ []
      ∧ (∀ c ∈ ds, c ∈ "0123456789abcdef".toList)
      ∧ (∀ v0, ds.foldl hexStep (some v0) = some (v0 * 16 ^ ds.length + u))
      ∧ (∀ k, ds.length ≤ k + 1 ↔ u < 16 ^ (k + 1)) := by
  induction fuel with
  | zero =>
    intro u a hu
    have hu0 : u = 0 := Nat.le_zero.mp hu
    subst hu0
    refine ⟨[digit 0], rfl, by simp, ?_, ?_, ?_⟩
    · intro c hc
      rw [List.mem_singleton] at hc
      rw [hc]; exact digit_mem_hex 0 (by norm_num)
    · intro v0
      simp [hexStep_digit v0 0 (by norm_num)]
      ring
    · intro k
      simp
  | succ fuel ih =>
    intro u a hu
    by_cases h16 : u ≥ 16
    · have hlt : u / 16 ≤ fuel := by
        have : u / 16 < u := Nat.div_lt_self (by omega) (by norm_num)
        omega
      obtain ⟨ds, heq, hne, hmem, hval, hlen⟩ := ih (u / 16) (digit (u % 16) :: a) hlt
      refine ⟨ds ++ [digit (u % 16)], ?_, by simp, ?_, ?_, ?_⟩
      · rw [formatBits, if_pos h16, heq]; simp
      · intro c hc
        rw [List.mem_append, List.mem_singleton] at hc
        rcases hc with hc | hc
        · exact hmem c hc
        · rw [hc]; exact digit_mem_hex _ (Nat.mod_lt _ (by norm_num))
      · intro v0
        rw [List.foldl_append, hval v0]
        simp only [List.foldl_cons, List.foldl_nil, List.length_append, List.length_singleton]
        rw [hexStep_digit _ _ (Nat.mod_lt _ (by norm_num))]
        congr 1
        have := Nat.div_add_mod u 16
        rw [pow_succ]
        nlinarith [this]
      · intro k
        rw [List.length_append, List.length_singleton]
        cases k with
        | zero =>
          have hpos : 0 < ds.length := List.length_pos.mpr hne
          constructor
          · intro h; omega
          · intro h; omega
        | succ k =>
          rw [Nat.add_le_add_iff_right, hlen k]
          rw [Nat.div_lt_iff_lt_mul (by norm_num : 0 < 16)]
          rw [pow_succ 16 (k + 1)]
    · have hu16 : u < 16 := Nat.lt_of_not_ge h16
      refine ⟨[digit u], ?_, by simp, ?_, ?_, ?_⟩
      · rw [formatBits, if_neg h16]; rfl
      · intro c hc
        rw [List.mem_singleton] at hc
        rw [hc]; exact digit_mem_hex u hu16
      · intro v0
        simp [hexStep_digit v0 u hu16]
        ring
      · intro k
        simp only [List.length_singleton]
        constructor
        · intro _
          calc u < 16 := hu16
            _ = 16 ^ 1 := by norm_num
            _ ≤ 16 ^ (k + 1) := Nat.pow_le_pow_right (by norm_num) (by omega)
        · intro _; omega

theorem Repeat_zero (k : Nat) : Repeat "0".toList k = List.replicate k '0' := by
  unfold Repeat
  induction k with
  | zero => rfl
  | succ k ih =>
    rw [List.replicate_succ, List.flatten_cons, ih, List.replicate_succ]
    rfl

theorem foldl_hexStep_zeros (k : Nat) (v : Nat) (hv : v = 0) :
    (List.replicate k '0').foldl hexStep (some v) = some 0 := by
  subst hv
  induction k with
  | zero => rfl
  | succ k ih =>
    rw [List.replicate_succ, List.foldl_cons]
    have : hexStep (some 0) '0' = some 0 := by decide
    rw [this]; exact ih

theorem len_append (a b : GoString) : len (a ++ b) = len a + len b := by
  simp [len]

theorem len_replicate (n : Nat) (c : Char) : len (List.replicate n c) = n * c.utf8Size := by
  simp [len]

theorem hex_utf8Size : ∀ c ∈ "0123456789abcdef".toList, c.utf8Size = 1 := by
  decide

theorem len_of_hex (ds : GoString) (h : ∀ c ∈ ds, c ∈ "0123456789abcdef".toList) :
    len ds = ds.length := by
  induction ds with
  | nil => rfl
  | cons c t ih =>
    have hc : c.utf8Size = 1 := hex_utf8Size c (h c (List.mem_cons_self c t))
    have ht : len t = t.length := ih (fun d hd => h d (List.mem_cons_of_mem c hd))
    have : len (c :: t) = c.utf8Size + len t := by simp [len]
    rw [this, hc, ht, List.length_cons]
    omega

/-! ## Framing: the claims -/

/-- C8 (counterexample): for a payload of 65532 bytes the header of
`packetWrite` is the eight digits `00010000`, so no header of four digits
precedes the payload and the output is 65540 bytes long, not 65536. -/
theorem packetWrite_long_payload :
    len (List.replicate 65532 'a') = 65532
    ∧ packetWrite (List.replicate 65532 'a') = "00010000".toList ++ List.replicate 65532 'a'
    ∧ len (packetWrite (List.replicate 65532 'a')) = 65540
    ∧ len (packetWrite (List.replicate 65532 'a')) ≠ len (List.replicate 65532 'a') + 4 := by
  have hf : FormatInt 65536 16 = "10000".toList := by decide
  have ha : 'a'.utf8Size = 1 := by decide
  have hl : len (List.replicate 65532 'a') = 65532 := by
    rw [len_replicate, ha]
  have h5 : len "10000".toList = 5 := by decide
  have h8 : len "00010000".toList = 8 := by decide
  have h1 : packetWrite (List.replicate 65532 'a')
      = "00010000".toList ++ List.replicate 65532 'a' := by
    unfold packetWrite
    rw [hl, hf]
    simp only [h5]
    rfl
  refine ⟨hl, h1, ?_, ?_⟩
  · rw [h1, len_append, hl, h8]
  · rw [h1, len_append, hl, h8]
    decide

/-- C8 (amended): for every payload `str`, `packetWrite(str)` is a header `h`
followed by the bytes of `str` unchanged, where `h` is a non-empty run of
hexadecimal digits whose number is a multiple of 4 and whose value is
`len(str) + 4`; the header has exactly 4 digits, which makes its value the
length of the whole output, exactly when `len(str) + 4 < 65536`. -/
theorem packetWrite_frame (str : GoString) :
    ∃ h : GoString, packetWrite str = h ++ str
      ∧ 0 < h.length ∧ h.length % 4 = 0 ∧ len h = h.length
      ∧ h.all (fun c => decide (c ∈ "0123456789abcdef".toList)) = true
      ∧ hexValue h = some (len str + 4)
      ∧ (h.length = 4 ↔ len str + 4 < 65536)
      ∧ (len (packetWrite str) = len str + 4 ↔ len str + 4 < 65536) := by
  obtain ⟨ds, heq, hne, hmem, hval, hlen⟩ :=
    formatBits_spec (len str + 4) (len str + 4) [] (Nat.le_refl _)
  rw [List.append_nil] at heq
  have hpos : 0 < ds.length := List.length_pos.mpr hne
  have hds : len ds = ds.length := len_of_hex ds hmem
  have h4 : ds.length ≤ 4 ↔ len str + 4 < 65536 := by
    have := hlen 3
    norm_num at this
    exact this
  have hpw : packetWrite str
      = (if ds.length % 4 ≠ 0 then List.replicate (4 - ds.length % 4) '0' ++ ds else ds)
        ++ str := by
    unfold packetWrite FormatInt
    simp only [heq, Repeat_zero, hds]
  by_cases hm : ds.length % 4 ≠ 0
  · rw [if_pos hm] at hpw
    have hmemh : ∀ c ∈ List.replicate (4 - ds.length % 4) '0' ++ ds,
        c ∈ "0123456789abcdef".toList := by
      intro c hc
      rw [List.mem_append] at hc
      rcases hc with hc | hc
      · rw [List.eq_of_mem_replicate hc]; decide
      · exact hmem c hc
    have hlh := len_of_hex _ hmemh
    have hlen4 : (List.replicate (4 - ds.length % 4) '0' ++ ds).length % 4 = 0 := by
      rw [List.length_append, List.length_replicate]
      omega
    have hiff : (List.replicate (4 - ds.length % 4) '0' ++ ds).length = 4
        ↔ len str + 4 < 65536 := by
      rw [← h4, List.length_append, List.length_replicate]
      omega
    refine ⟨List.replicate (4 - ds.length % 4) '0' ++ ds, hpw, ?_, hlen4, hlh, ?_, ?_, hiff, ?_⟩
    · rw [List.length_append]; omega
    · rw [List.all_eq_true]
      intro c hc
      exact decide_eq_true (hmemh c hc)
    · rw [hexValue_eq_foldl, List.foldl_append, foldl_hexStep_zeros _ 0 rfl, hval 0]
      simp
    · rw [hpw, len_append, hlh, ← hiff]
      omega
  · rw [if_neg hm] at hpw
    have hm0 : ds.length % 4 = 0 := by
      by_contra h; exact hm h
    have hiff : ds.length = 4 ↔ len str + 4 < 65536 := by
      rw [← h4]; omega
    refine ⟨ds, hpw, hpos, hm0, hds, ?_, ?_, hiff, ?_⟩
    · rw [List.all_eq_true]
      intro c hc
      exact decide_eq_true (hmem c hc)
    · rw [hexValue_eq_foldl, hval 0]; simp
    · rw [hpw, len_append, hds, ← hiff]
      omega

/-- C8 (amended), at the announcement line of `infoRefsHandler` for upload-pack:
the header is `001e`. -/
theorem packetWrite_frame_witness :
    packetWrite "# service=git-upload-pack\n".toList
      = "001e".toList ++ "# service=git-upload-pack\n".toList
    ∧ ∃ h : GoString, packetWrite "# service=git-upload-pack\n".toList
        = h ++ "# service=git-upload-pack\n".toList ∧ h.length = 4 :=
  ⟨by decide, by
    obtain ⟨h, h1, _, _, _, _, _, h6, _⟩ :=
      packetWrite_frame "# service=git-upload-pack\n".toList
    exact ⟨h, h1, h6.mpr (by decide)⟩⟩

/-! ## Service endpoints: lemmas -/

theorem Remove_gitResult {E : Type} (name : GoString) (w : World E) :
    (Remove name w).2.gitResult = w.gitResult := by
  unfold Remove
  split
  · split <;> rfl
  · rfl

theorem syncNode_gitResult {E : Type} (x : Executor E) (node : GoString) (w : World E) :
    (syncNode x node w).2.gitResult = w.gitResult := by
  unfold syncNode
  dsimp only
  split
  · rfl
  · split
    · rfl
    · split
      · rfl
      · split
        · rfl
        · split
          · rfl
          · split
            · rfl
            · rw [Remove_gitResult]; rfl

/-- On a request whose content type is not the expected one, `serviceRPC` puts
no result on the channel, whatever the node, the executor and the world. -/
theorem serviceRPC_content_type_mismatch {E : Type} (x : Executor E) (h : serviceHandler)
    (service : GoString) (resultChan : ResultChan) (w : World E)
    (hct : h.r.Header "Content-Type".toList
      ≠ "application/x-git-".toList ++ service ++ "-request".toList) :
    (serviceRPC x h service resultChan w).2.gitResult = w.gitResult := by
  have hs := syncNode_gitResult x h.dir w
  unfold serviceRPC
  split
  · next w0 heq => rw [heq] at hs; exact hs
  · next e w0 _ heq =>
    rw [heq] at hs
    dsimp only
    rw [if_pos hct]
    simp only [WriteHeader]
    split <;> exact hs

theorem Remove_resp {E : Type} (name : GoString) (w : World E) :
    (Remove name w).2.resp = w.resp := by
  unfold Remove
  split
  · split <;> rfl
  · rfl

theorem syncNode_resp {E : Type} (x : Executor E) (node : GoString) (w : World E) :
    (syncNode x node w).2.resp = w.resp := by
  unfold syncNode
  dsimp only
  split
  · rfl
  · split
    · rfl
    · split
      · rfl
      · split
        · rfl
        · split
          · rfl
          · split
            · rfl
            · rw [Remove_resp]; rfl

theorem WriteHeader_status {E : Type} (code : Nat) (w : World E) :
    (WriteHeader code w).resp.status = some (w.resp.status.getD code) := by
  unfold WriteHeader
  cases h : w.resp.status <;> simp [h]

theorem WriteHeader_invocations {E : Type} (code : Nat) (w : World E) :
    (WriteHeader code w).invocations = w.invocations := by
  unfold WriteHeader
  split <;> rfl

/-- A request refused by `serviceRPC` (content type not the expected one, or
service not allowed), when the resync before it does not panic: the status 401
is written (unless a status was written before) and the executor runs nothing
beyond the resync, so the service command is not run. -/
theorem serviceRPC_refused {E : Type} (x : Executor E) (h : serviceHandler)
    (service : GoString) (resultChan : ResultChan) (w : World E)
    (hsync : (syncNode x h.dir w).1 ≠ Exit.panicked)
    (href : h.r.Header "Content-Type".toList
        ≠ "application/x-git-".toList ++ service ++ "-request".toList
      ∨ ∃ e, prepareGitCmdWithAllowedService service h = Except.error e) :
    (serviceRPC x h service resultChan w).2.resp.status
      = some (w.resp.status.getD StatusUnauthorized)
    ∧ (serviceRPC x h service resultChan w).2.invocations
      = (syncNode x h.dir w).2.invocations := by
  have hr := syncNode_resp x h.dir w
  unfold serviceRPC
  split
  · next w0 heq => rw [heq] at hsync; exact absurd rfl hsync
  · next e w0 _ heq =>
    rw [heq] at hr
    simp only [heq]
    by_cases hct : h.r.Header "Content-Type".toList
        ≠ "application/x-git-".toList ++ service ++ "-request".toList
    · rw [if_pos hct]
      exact ⟨by rw [WriteHeader_status, hr], WriteHeader_invocations _ _⟩
    · rw [if_neg hct]
      rcases href with hc | ⟨e, he⟩
      · exact absurd hc hct
      · rw [he]
        exact ⟨by rw [WriteHeader_status, hr], WriteHeader_invocations _ _⟩

/-! ## Service endpoints: the claims -/

/-- C9 (code at the failing input): `GET /info/refs?service=git-bogus` and
`GET /info/refs?service=upload-pack` (no `git-` prefix) name a refused service;
`infoRefsHandler` runs no executor command and returns without writing any
status code, so the answer is not 401, while `serviceRPC` behind
`POST /git-upload-pack` writes 401 for a refused request. -/
theorem infoRefs_refused_service_writes_no_status :
    getServiceType (sampleRequest "git-bogus".toList []) = "bogus".toList
    ∧ (infoRefsHandler okExecutor (sampleRequest "git-bogus".toList []) emptyWorld).1
        = Exit.returned
    ∧ (infoRefsHandler okExecutor (sampleRequest "git-bogus".toList []) emptyWorld).2.invocations
        = []
    ∧ (infoRefsHandler okExecutor (sampleRequest "git-bogus".toList []) emptyWorld).2.resp.status
        = none
    ∧ (infoRefsHandler okExecutor (sampleRequest "git-bogus".toList []) emptyWorld).2.resp.body
        = []
    ∧ (infoRefsHandler okExecutor (sampleRequest "upload-pack".toList []) emptyWorld).2.resp.status
        = none
    ∧ sentStatus
        (infoRefsHandler okExecutor (sampleRequest "git-bogus".toList []) emptyWorld).2.resp
        = 200
    ∧ sentStatus
        (infoRefsHandler okExecutor (sampleRequest "git-bogus".toList []) emptyWorld).2.resp
        ≠ StatusUnauthorized
    ∧ (uploadPackHandler okExecutor (sampleRequest [] "text/plain".toList) ⟨false⟩
        emptyWorld).2.resp.status = some StatusUnauthorized := by
  decide

/-- C10 (code at the failing input): on `POST /git-receive-pack` with the
content type `text/plain` the per-node task writes 401 and returns with the
channel still empty, and after the tasks of all three nodes the channel holds
no result, so the collector is left waiting; the same happens for a gzip
content encoding on a body without gzip header (status 500). With the expected
content type each task sends its one result. -/
theorem nodeTask_early_return_sends_no_result :
    (nodeTask okExecutor (sampleRequest [] "text/plain".toList) ⟨false⟩ 1 emptyWorld).1
        = Exit.returned
    ∧ (nodeTask okExecutor (sampleRequest [] "text/plain".toList) ⟨false⟩ 1
        emptyWorld).2.resp.status = some StatusUnauthorized
    ∧ (nodeTask okExecutor (sampleRequest [] "text/plain".toList) ⟨false⟩ 1
        emptyWorld).2.gitResult = []
    ∧ (nodeTasks okExecutor (sampleRequest [] "text/plain".toList) emptyWorld).gitResult = []
    ∧ (collector 3 ((nodeTasks okExecutor (sampleRequest [] "text/plain".toList)
        emptyWorld).gitResult.map Event.recv) emptyWorld).1 = LoopExit.waiting
    ∧ (nodeTask okExecutor gzipRequest ⟨false⟩ 1 emptyWorld).2.resp.status
        = some StatusInternalServerError
    ∧ (nodeTask okExecutor gzipRequest ⟨false⟩ 1 emptyWorld).2.gitResult = []
    ∧ (nodeTasks okExecutor
        (sampleRequest [] "application/x-git-receive-pack-request".toList) emptyWorld).gitResult
        = [⟨node1, none⟩, ⟨node2, none⟩, ⟨node3, none⟩] := by
  decide

end Gitscale
